import Mathlib

/-!
Verification development for the QDM download manager
(src/electron/download-engine.ts, src/electron/browser-monitor.ts,
src/electron/queue-manager.ts, src/electron/types.ts).

The TypeScript sources are shallowly embedded: every definition below is a
direct translation of the named source function, with JavaScript runtime
behaviour (falsy defaults, parseInt, NaN-poisoned comparisons, object
spread) made explicit.  String operations are implemented structurally
over the character list of a string so that every definition evaluates
inside the kernel.
-/

namespace QDM

/-! ## JavaScript string and number primitives -/

/-- Structural test that the first list occurs at the start of the second
(model of JavaScript String.startsWith at the character level). -/
def listIsPre : List Char → List Char → Bool
  | [], _ => true
  | _ :: _, [] => false
  | a :: as, b :: bs => a = b && listIsPre as bs

/-- Structural substring search (model of JavaScript String.includes at the
character level). -/
def listInfix (pat : List Char) : List Char → Bool
  | [] => listIsPre pat []
  | c :: rest => listIsPre pat (c :: rest) || listInfix pat rest

/-- Model of JavaScript s.includes(pat). -/
def strContains (s pat : String) : Bool := listInfix pat.data s.data

/-- Model of JavaScript s.startsWith(pat). -/
def strStartsWith (s pat : String) : Bool := listIsPre pat.data s.data

/-- ASCII lower-casing of one character (JavaScript toLowerCase on the
ASCII header and content-type strings this program handles). -/
def charToLower (c : Char) : Char :=
  if 'A' ≤ c ∧ c ≤ 'Z' then Char.ofNat (c.toNat + 32) else c

/-- Model of JavaScript s.toLowerCase() for ASCII strings. -/
def strToLower (s : String) : String := ⟨s.data.map charToLower⟩

/-- Split a character list at every occurrence of sep
(model of JavaScript s.split(sep) for a one-character separator). -/
def listSplitOnChar (sep : Char) : List Char → List (List Char)
  | [] => [[]]
  | c :: rest =>
    let r := listSplitOnChar sep rest
    if c = sep then [] :: r
    else match r with
      | [] => [[c]]
      | h :: t => (c :: h) :: t

/-- Model of JavaScript s.split(sep) for a one-character separator. -/
def strSplitOnChar (sep : Char) (s : String) : List String :=
  (listSplitOnChar sep s.data).map (fun l => ⟨l⟩)

/-- Value of a list of decimal digits. -/
def digitsToNat (l : List Char) : Nat := l.foldl (fun a c => a * 10 + (c.toNat - 48)) 0

/-- Model of JavaScript Number(s) restricted to the non-negative decimal
numerals this program feeds it (schedule fields of the form HH and MM);
none models NaN. -/
def jsNumberNat (s : String) : Option Nat :=
  if s.data ≠ [] ∧ s.data.all Char.isDigit then some (digitsToNat s.data) else none

/-- Model of JavaScript parseInt(s, 10): skip leading spaces, read an
optional sign and then the longest decimal-digit run; NaN (none) when no
digit follows. -/
def jsParseInt (s : String) : Option Int :=
  let l := s.data.dropWhile (fun c => c = ' ')
  let signedDigits : Int × List Char :=
    match l with
    | '-' :: t => (-1, t)
    | '+' :: t => (1, t)
    | t => (1, t)
  let ds := signedDigits.2.takeWhile Char.isDigit
  if ds.isEmpty then none else some (signedDigits.1 * digitsToNat ds)

/-- NaN-respecting a <= b on JavaScript numbers: false when either side is
NaN (none). -/
def jsLeOpt : Option Nat → Option Nat → Bool
  | some a, some b => a ≤ b
  | _, _ => false

/-- NaN-respecting a >= b on JavaScript numbers: false when either side is
NaN (none). -/
def jsGeOpt : Option Nat → Option Nat → Bool
  | some a, some b => b ≤ a
  | _, _ => false

/-- JavaScript object property write on a string-keyed record modelled as an
association list: replace the value of an existing key, else append. -/
def objSet : List (String × String) → String → String → List (String × String)
  | [], k, v => [(k, v)]
  | kv :: rest, k, v => if kv.1 = k then (k, v) :: rest else kv :: objSet rest k v

/-- Fold of objSet, the model of the object spread { ...base, ...upd }. -/
def objAssign (base upd : List (String × String)) : List (String × String) :=
  upd.foldl (fun acc kv => objSet acc kv.1 kv.2) base

/-- First value stored under a key (JavaScript property read). -/
def getHeader : List (String × String) → String → Option String
  | [], _ => none
  | kv :: rest, k => if kv.1 = k then some kv.2 else getHeader rest k

/-! ## Data model (src/electron/types.ts) -/

/-- DownloadStatus from types.ts. -/
inductive DownloadStatus
  | queued | downloading | paused | completed | failed | assembling | stopped
deriving DecidableEq

/-- SegmentState from types.ts is a numeric enum; the engine stores the raw
numbers, so segment state is a Nat with the four named values below. -/
def stNotStarted : Nat := 0

/-- SegmentState.Downloading = 1. -/
def stDownloading : Nat := 1

/-- SegmentState.Finished = 2. -/
def stFinished : Nat := 2

/-- SegmentState.Failed = 3. -/
def stFailed : Nat := 3

/-- DownloadSegment from types.ts.  Sizes are Int because the source uses
-1 for an unknown length.  The id is an opaque random string in the source
(generateId); it is modelled by a Nat chosen fresh by each caller. -/
structure DownloadSegment where
  id : Nat
  offset : Int
  length : Int
  downloaded : Int
  state : Nat
  speed : Int
deriving DecidableEq

/-- DownloadItem from types.ts, restricted to the fields the engine logic
reads or writes (presentational fields category/dateAdded/dateCompleted and
the UI hint fields are omitted; no claim mentions them).  headers is the
Record<string, string> of caller-supplied request headers. -/
structure DownloadItem where
  id : String
  url : String
  fileName : String
  fileSize : Int
  downloaded : Int
  progress : Int
  speed : Int
  eta : Int
  status : DownloadStatus
  savePath : String
  resumable : Bool
  segments : List DownloadSegment
  maxSegments : Nat
  error : Option String
  headers : List (String × String)
deriving DecidableEq

/-! ## Probe (download-engine.ts, probeUrl, lines 188-207)

probeUrl issues a HEAD request; the lines modelled here are the pure
computation of fileSize and resumable from the final (non-redirect)
response headers. -/

/-- The response headers probeUrl reads. -/
structure ProbeResponse where
  contentLength : Option String
  acceptRanges : Option String
deriving DecidableEq

/-- parseInt(res.headers[content-length] or -1, 10): the header expression
is JavaScript ||, so an absent or empty header falls back to the string
"-1"; an unparseable header is NaN (none), not -1. -/
def probeFileSize (res : ProbeResponse) : Option Int :=
  jsParseInt (match res.contentLength with
    | none => "-1"
    | some s => if s = "" then "-1" else s)

/-- resumable = acceptRanges === "bytes" || fileSize > 0, with the strict
JavaScript string equality and the NaN-false comparison. -/
def probeResumable (res : ProbeResponse) : Bool :=
  (match res.acceptRanges with
    | some v => decide (v = "bytes")
    | none => false)
  || (match probeFileSize res with
    | some n => decide (0 < n)
    | none => false)

/-! ## Segmenter (download-engine.ts, initializeSegments, lines 275-311) -/

/-- The local segmentCount of initializeSegments (line 290):
min(maxSegments, max(1, floor(fileSize / 256KB))).  The guard of the
branch using it guarantees fileSize > 0, so the JavaScript Math.floor
division is the Nat division of fileSize.toNat. -/
def segmentCountOf (item : DownloadItem) : Nat :=
  min item.maxSegments (max 1 (item.fileSize.toNat / (256 * 1024)))

/-- The local segmentSize of initializeSegments (line 291):
floor(fileSize / segmentCount). -/
def segmentSizeOf (item : DownloadItem) : Nat :=
  item.fileSize.toNat / segmentCountOf item

/-- initializeSegments.  Segment ids (generateId in the source) are
modelled by the loop index. -/
def initializeSegments (item : DownloadItem) : List DownloadSegment :=
  if item.fileSize ≤ 0 || !item.resumable then
    [{ id := 0, offset := 0,
       length := if 0 < item.fileSize then item.fileSize else -1,
       downloaded := 0, state := stNotStarted, speed := 0 }]
  else
    (List.range (segmentCountOf item)).map (fun i =>
      { id := i, offset := (i * segmentSizeOf item : Nat),
        length := if i = segmentCountOf item - 1
          then item.fileSize - (i * segmentSizeOf item : Nat)
          else (segmentSizeOf item : Nat),
        downloaded := 0, state := stNotStarted, speed := 0 })

/-! ## Segment worker (download-engine.ts, downloadSegment, lines 316-420) -/

/-- The Range header value the worker computes at lines 334-336. -/
def rangeHeaderValue (seg : DownloadSegment) : String :=
  "bytes=" ++ toString (seg.offset + seg.downloaded) ++ "-" ++
    toString (seg.offset + seg.length - 1)

/-- Request headers the worker sends (lines 327-337): a fixed User-Agent
object-spread-overridden by the caller-supplied item.headers verbatim, then
the Range property set when the item is resumable and the segment has a
positive length.  No stripping happens here. -/
def buildSegmentHeaders (item : DownloadItem) (seg : DownloadSegment) :
    List (String × String) :=
  let headers := objAssign [("User-Agent", "QDM/1.0 (Quantum Download Manager)")] item.headers
  if item.resumable && decide (0 < seg.length) then
    objSet headers "Range" (rangeHeaderValue seg)
  else headers

/-- Per-chunk handler (lines 371-381): append the chunk, bump the counters.
The parallel bump of item.downloaded is applied by the supervisor model. -/
def onResponseData (seg : DownloadSegment) (chunkLen : Int) : DownloadSegment :=
  { seg with downloaded := seg.downloaded + chunkLen, speed := chunkLen }

/-- Clean-EOF handler (lines 383-388): the segment is marked Finished
unconditionally; downloaded is not compared against length. -/
def onResponseEnd (seg : DownloadSegment) : DownloadSegment :=
  { seg with state := stFinished }

/-- Error handler at lines 390-395 (and 398-410): the segment is marked
Failed. -/
def onResponseError (seg : DownloadSegment) : DownloadSegment :=
  { seg with state := stFailed }

/-! ## Supervisor operations (download-engine.ts) -/

/-- The synchronous prefix of startDownload (lines 460-492), up to the
point where the segment workers are spawned: the downloading guard, lazy
segment initialization, the status flip and the started event.  The
returned list holds the events emitted by this prefix. -/
def startDownloadSync (item : DownloadItem) : DownloadItem × List String :=
  if item.status = DownloadStatus.downloading then (item, [])
  else
    let item := if item.segments.isEmpty
      then { item with segments := initializeSegments item } else item
    let item := { item with status := DownloadStatus.downloading, error := none }
    (item, ["download:started"])

/-- The reset performed by retryDownload (lines 697-711) before it calls
startDownload: every non-Finished segment is reset to NotStarted with
downloaded = 0, and item.downloaded is recomputed as the reduce-sum of the
segment counters. -/
def retryDownloadReset (item : DownloadItem) : DownloadItem :=
  let segments := item.segments.map (fun seg =>
    if seg.state ≠ stFinished
    then { seg with state := stNotStarted, downloaded := 0 }
    else seg)
  { item with
    segments := segments,
    downloaded := segments.foldl (fun sum seg => sum + seg.downloaded) 0,
    error := none }

/-! ## Queue manager (src/electron/queue-manager.ts) -/

/-- QueueSchedule from queue-manager.ts: HH:mm strings and a weekday list
(0 = Sunday .. 6 = Saturday). -/
structure QueueSchedule where
  enabled : Bool
  startTime : String
  endTime : String
  days : List Nat
deriving DecidableEq

/-- The local wall-clock values isWithinSchedule reads from new Date():
getDay(), getHours(), getMinutes(). -/
structure LocalNow where
  day : Nat
  hours : Nat
  minutes : Nat
deriving DecidableEq

/-- DownloadQueue from queue-manager.ts. -/
structure DownloadQueue where
  id : String
  name : String
  downloadIds : List String
  maxConcurrent : Nat
  enabled : Bool
  schedule : Option QueueSchedule
deriving DecidableEq

/-- The pair [h, m] = s.split(":").map(Number) destructured at lines
202-203; a missing component or a non-numeral is NaN (none). -/
def parseTimePair (s : String) : Option Nat × Option Nat :=
  let parts := (strSplitOnChar ':' s).map jsNumberNat
  ((parts.get? 0).join, (parts.get? 1).join)

/-- h * 60 + m with NaN propagation (lines 204-205). -/
def timePairMinutes : Option Nat × Option Nat → Option Nat
  | (some h, some m) => some (h * 60 + m)
  | _ => none

/-- isWithinSchedule (queue-manager.ts lines 195-213), with the current
local time passed explicitly. -/
def isWithinSchedule (schedule : QueueSchedule) (now : LocalNow) : Bool :=
  if !(schedule.days.contains now.day) then false
  else
    let currentMinutes : Option Nat := some (now.hours * 60 + now.minutes)
    let startMinutes := timePairMinutes (parseTimePair schedule.startTime)
    let endMinutes := timePairMinutes (parseTimePair schedule.endTime)
    if jsLeOpt startMinutes endMinutes then
      jsGeOpt currentMinutes startMinutes && jsLeOpt currentMinutes endMinutes
    else
      jsGeOpt currentMinutes startMinutes || jsLeOpt currentMinutes endMinutes

/-- getNextDownloadIds (queue-manager.ts lines 167-180): admission of the
next queued ids, gated by the enabled flag, the free slots
(max 0 (maxConcurrent - active), Nat subtraction) and the schedule. -/
def getNextDownloadIds (queue : DownloadQueue) (currentActiveCount : Nat)
    (now : LocalNow) : List String :=
  if !queue.enabled then []
  else
    let slotsAvailable := queue.maxConcurrent - currentActiveCount
    if slotsAvailable = 0 then []
    else if (match queue.schedule with
      | some s => s.enabled && !(isWithinSchedule s now)
      | none => false) then []
    else queue.downloadIds.take slotsAvailable

/-! ## Browser monitor (src/electron/browser-monitor.ts)

URLs are modelled structurally (scheme, host, path, ordered query pairs);
urlToString is the serialization the WHATWG URL class returns, on which the
source performs its substring checks and string comparisons. -/

/-- A parsed URL. -/
structure Url where
  scheme : String
  host : String
  path : String
  query : List (String × String)
deriving DecidableEq

/-- Query-string serialization: empty for no parameters, else
?k1=v1&k2=v2... in stored order. -/
def queryToString (q : List (String × String)) : String :=
  match q with
  | [] => ""
  | _ => "?" ++ String.intercalate "&" (q.map (fun kv => kv.1 ++ "=" ++ kv.2))

/-- URL serialization (url.toString()). -/
def urlToString (u : Url) : String :=
  u.scheme ++ "://" ++ u.host ++ u.path ++ queryToString u.query

/-- MediaItem from browser-monitor.ts.  description is a display string
assembled with floating-point size formatting (formatSize uses Math.log);
it is presentational, untouched by every claim, and omitted from the
model. -/
structure MediaItem where
  id : Nat
  name : String
  tabUrl : String
  tabId : String
  url : Url
  mediaType : String
  size : Int
  contentType : String
  headers : List (String × String)
  cookies : Option String
deriving DecidableEq

/-- BrowserMessage from browser-monitor.ts (the ingestion wire message).
url is none when the field is absent (the JavaScript falsy check). -/
structure BrowserMessage where
  url : Option Url
  file : Option String
  requestHeaders : List (String × String)
  responseHeaders : List (String × String)
  cookie : Option String
  tabUrl : Option String
  tabTitle : Option String
  tabId : Option String
  vid : Option Nat
  contentType : Option String
  contentLength : Option Int
  quality : Option String
deriving DecidableEq

/-- The monitor state the ingestion handlers mutate: the media list (a
Map preserving insertion order) and a counter generating fresh ids
(generateId in the source returns a fresh random string). -/
structure MonitorState where
  mediaList : List MediaItem
  nextId : Nat
deriving DecidableEq

/-- A request body as seen by JSON.parse: malformed (parse throws), a
single object, or an array. -/
inductive ReqBody
  | malformed
  | message (msg : BrowserMessage)
  | messages (msgs : List BrowserMessage)
deriving DecidableEq

/-- cleanHeaders (browser-monitor.ts lines 558-572): drop every header
whose lower-cased name is in the blocked set, keep the rest verbatim. -/
def blockedHeaderNames : List String :=
  ["accept", "if-none-match", "if-modified-since", "authorization",
   "proxy-authorization", "connection", "expect", "te", "upgrade",
   "range", "transfer-encoding", "content-type", "content-length",
   "content-encoding"]

/-- cleanHeaders itself. -/
def cleanHeaders (headers : List (String × String)) : List (String × String) :=
  headers.filter (fun kv => !(blockedHeaderNames.contains (strToLower kv.1)))

/-- isYouTube (lines 451-454): substring checks on the URL serialization
and the tab URL. -/
def isYouTube (url : Url) (tabUrl : String) : Bool :=
  (strContains (urlToString url) "googlevideo.com"
    || strContains (urlToString url) "youtube.com")
  || strContains tabUrl "youtube.com/watch"

/-- isHLS (lines 439-443). -/
def isHLS (contentType : String) (url : Url) : Bool :=
  strContains contentType "mpegurl" || strContains contentType "x-mpegurl"
  || strContains (strToLower (urlToString url)) ".m3u8"

/-- isDASH (lines 445-449). -/
def isDASH (contentType : String) (url : Url) : Bool :=
  strContains contentType "dash+xml" || strContains contentType "dash"
  || strContains (strToLower (urlToString url)) ".mpd"

/-- getYouTubeBaseUrl (lines 460-470): delete the range, rn and rbuf query
parameters (searchParams.delete removes every pair with that name). -/
def getYouTubeBaseUrl (u : Url) : Url :=
  { u with query := u.query.filter (fun kv =>
      !(kv.1 = "range" || kv.1 = "rn" || kv.1 = "rbuf")) }

/-- getFileNameFromUrl (lines 516-524): last path component, with
percent-decoding modelled as the identity (no claim input carries a
percent escape), falling back to "media". -/
def monitorFileNameFromUrl (u : Url) : String :=
  let name := ((listSplitOnChar '/' u.path.data).map (fun l => (⟨l⟩ : String))).getLastD ""
  if name = "" then "media" else name

/-- The strict media filter at lines 255-258 of onMediaMessage. -/
def isJunkContentType (contentType : String) : Bool :=
  let ct := strToLower contentType
  strStartsWith ct "text/" || strContains ct "javascript" || strContains ct "json"
    || strContains ct "xml" || strStartsWith ct "font/" || strStartsWith ct "image/svg"

/-- The effective content type (lines 249-251): msg.contentType, else the
content-type response header in either case form, else the empty string
(JavaScript || treats the empty string as absent). -/
def effectiveContentType (msg : BrowserMessage) : String :=
  let pick : Option String → Option String := fun o =>
    match o with
    | some s => if s = "" then none else some s
    | none => none
  (((pick msg.contentType).orElse
    (fun _ => pick (getHeader msg.responseHeaders "content-type"))).orElse
    (fun _ => pick (getHeader msg.responseHeaders "Content-Type"))).getD ""

/-- The media type classification of onMediaMessage (lines 267-276). -/
def classifyMediaType (msg : BrowserMessage) (url : Url) (contentType : String) : String :=
  let ct := strToLower contentType
  if isHLS contentType url then "hls"
  else if isDASH contentType url then "dash"
  else if isYouTube url ((msg.tabUrl).getD "") then "youtube"
  else if strStartsWith ct "audio/" then "audio"
  else "video"

/-- Drop a trailing " - YouTube" (the regex replace at line 281). -/
def dropYouTubeSuffix (s : String) : String :=
  if listIsPre " - YouTube".data.reverse s.data.reverse
  then ⟨(s.data.reverse.drop 10).reverse⟩ else s

/-- The display name computed at lines 279-284. -/
def mediaName (msg : BrowserMessage) (url : Url) (mediaType : String) : String :=
  match msg.file with
  | some f =>
    if mediaType = "youtube" && !(strContains f "/")
    then dropYouTubeSuffix f ++ ".mp4"
    else monitorFileNameFromUrl url
  | none => monitorFileNameFromUrl url

/-- onMediaMessage (lines 244-326) on an already-parsed message: the junk
content-type filter, the sub-500KB filter for non-YouTube streams, the
YouTube range normalization, dedup by canonical URL, and insertion.
Returns the new state and the emitted events. -/
def onMediaMessage (st : MonitorState) (msg : BrowserMessage) :
    MonitorState × List String :=
  match msg.url with
  | none => (st, [])
  | some url =>
    let contentType := effectiveContentType msg
    let contentLength : Int := (msg.contentLength).getD 0
    if isJunkContentType contentType then (st, [])
    else
      let isYouTubeStream := isYouTube url ((msg.tabUrl).getD "")
      if !isYouTubeStream && decide (0 < contentLength) &&
          decide (contentLength < 500 * 1024) then (st, [])
      else
        let mediaType := classifyMediaType msg url contentType
        let media : MediaItem :=
          { id := st.nextId,
            name := mediaName msg url mediaType,
            tabUrl := (msg.tabUrl).getD "",
            tabId := (msg.tabId).getD "",
            url := url,
            mediaType := mediaType,
            size := contentLength,
            contentType := contentType,
            headers := cleanHeaders msg.requestHeaders,
            cookies := msg.cookie }
        let dedupeUrl := if isYouTubeStream
          then urlToString (getYouTubeBaseUrl url) else urlToString url
        let media := if isYouTubeStream
          then { media with url := getYouTubeBaseUrl url } else media
        if st.mediaList.any (fun existing =>
            (if isYouTube existing.url ""
             then urlToString (getYouTubeBaseUrl existing.url)
             else urlToString existing.url) = dedupeUrl)
        then (st, [])
        else ({ st with mediaList := st.mediaList ++ [media], nextId := st.nextId + 1 },
              ["media:added"])

/-- onMediaMessage lifted to a raw body: JSON.parse failure is caught
inside the handler (lines 323-325) and leaves the state untouched; an
array body parses but has no url field, so the url guard returns. -/
def onMediaBody (st : MonitorState) (body : ReqBody) : MonitorState × List String :=
  match body with
  | ReqBody.message msg => onMediaMessage st msg
  | _ => (st, [])

/-- The host blocklist check of onDownloadMessage (isBlockedUrl,
lines 406-413). -/
def defaultBlockedHosts : List String :=
  ["update.googleapis.com", "safebrowsing.googleapis.com",
   "clients2.google.com", "clients1.google.com", "translate.googleapis.com"]

/-- isBlockedUrl. -/
def isBlockedUrl (u : Url) : Bool :=
  defaultBlockedHosts.any (fun host => strContains u.host host)

/-- The interception filter of onDownloadMessage (shouldInterceptUrl,
lines 415-437), restricted to the default extension list. -/
def defaultFileExtensions : List String :=
  [".zip", ".rar", ".7z", ".tar", ".gz", ".bz2", ".xz",
   ".exe", ".msi", ".dmg", ".deb", ".rpm", ".appimage", ".apk",
   ".pdf", ".doc", ".docx", ".xls", ".xlsx", ".ppt", ".pptx",
   ".mp3", ".flac", ".wav", ".aac", ".ogg", ".wma", ".m4a", ".opus",
   ".mp4", ".mkv", ".avi", ".mov", ".wmv", ".flv", ".webm", ".m4v",
   ".iso", ".img", ".bin", ".torrent",
   ".jpg", ".jpeg", ".png", ".gif", ".bmp", ".svg", ".webp",
   ".epub", ".mobi", ".azw3"]

/-- shouldInterceptUrl. -/
def shouldInterceptUrl (u : Url) (contentType : Option String) : Bool :=
  let urlLower := strToLower (urlToString u)
  defaultFileExtensions.any (fun ext => strContains urlLower ext)
  || (match contentType with
    | some c =>
      let ct := strToLower c
      strContains ct "application/octet-stream" || strContains ct "application/zip"
        || strContains ct "application/x-rar" || strContains ct "application/pdf"
        || strContains ct "application/x-msdownload" || strContains ct "application/x-iso"
    | none => false)

/-- onDownloadMessage (lines 219-242): no monitor state changes, only a
browser:download event when the url passes the blocklist and the
interception filter; parse failures are swallowed. -/
def onDownloadBody (st : MonitorState) (body : ReqBody) : MonitorState × List String :=
  match body with
  | ReqBody.message msg =>
    (match msg.url with
     | none => (st, [])
     | some url =>
       if isBlockedUrl url then (st, [])
       else if !(shouldInterceptUrl url msg.contentType) then (st, [])
       else (st, ["browser:download"]))
  | _ => (st, [])

/-- onVideoDownloadMessage (lines 328-340): emit media:download when the
referenced MediaItem exists; no state change. -/
def onVidBody (st : MonitorState) (body : ReqBody) : MonitorState × List String :=
  match body with
  | ReqBody.message msg =>
    (match msg.vid with
     | none => (st, [])
     | some vid =>
       if st.mediaList.any (fun m => m.id = vid)
       then (st, ["media:download"]) else (st, []))
  | _ => (st, [])

/-- sanitizeFileName (lines 554-556) without the final trim (no claim
depends on surrounding whitespace). -/
def sanitizeFileName (name : String) : String :=
  ⟨name.data.map (fun c =>
    if c = '<' || c = '>' || c = ':' || c = '"' || c = '/' || c = '\\'
        || c = '|' || c = '?' || c = '*' then '_' else c)⟩

/-- onTabUpdateMessage (lines 342-358): rename every MediaItem whose
tabUrl matches, preserving the extension; one media:updated event per
match. -/
def onTabUpdateBody (st : MonitorState) (body : ReqBody) : MonitorState × List String :=
  match body with
  | ReqBody.message msg =>
    (match msg.tabUrl, msg.tabTitle with
     | some tabUrl, some tabTitle =>
       let updated := st.mediaList.map (fun m =>
         if m.tabUrl = tabUrl then
           let ext := if strContains m.name "."
             then "." ++ ((listSplitOnChar '.' m.name.data).map
                 (fun l => (⟨l⟩ : String))).getLastD ""
             else ""
           { m with name := sanitizeFileName tabTitle ++ ext }
         else m)
       ({ st with mediaList := updated },
        (st.mediaList.filter (fun m => m.tabUrl = tabUrl)).map (fun _ => "media:updated"))
     | _, _ => (st, []))
  | _ => (st, [])

/-- onBatchMessage (lines 360-379): emits one browser:batch event when the
array holds at least one url; no state change. -/
def onBatchBody (st : MonitorState) (body : ReqBody) : MonitorState × List String :=
  match body with
  | ReqBody.messages msgs =>
    if (msgs.filter (fun m => m.url.isSome)).isEmpty then (st, [])
    else (st, ["browser:batch"])
  | _ => (st, [])

/-- handleRequest (browser-monitor.ts lines 164-217): OPTIONS is answered
204 with no dispatch; every other request is dispatched on the path (every
handler swallows its own parse errors) and then always answered 200 with
the sync snapshot.  Result: (new state, HTTP status, events). -/
def handleRequest (st : MonitorState) (method : String) (path : String)
    (body : ReqBody) : MonitorState × Nat × List String :=
  if method = "OPTIONS" then (st, 204, [])
  else
    let dispatched :=
      if path = "/sync" then (st, [])
      else if path = "/download" then onDownloadBody st body
      else if path = "/media" then onMediaBody st body
      else if path = "/vid" then onVidBody st body
      else if path = "/tab-update" then onTabUpdateBody st body
      else if path = "/clear" then ({ st with mediaList := [] }, ["media:cleared"])
      else if path = "/link" then onBatchBody st body
      else (st, [])
    (dispatched.1, 200, dispatched.2)

/-! ## Concrete sample values used by witnesses and counterexamples -/

/-- A download item currently in the downloading state. -/
def sampleItemDownloading : DownloadItem :=
  { id := "d1", url := "http://example.com/f.zip", fileName := "f.zip",
    fileSize := 1000000, downloaded := 0, progress := 0, speed := 0, eta := 0,
    status := DownloadStatus.downloading, savePath := "/tmp/downloads",
    resumable := true, segments := [], maxSegments := 4, error := none,
    headers := [] }

/-- A resumable download item whose caller supplied an Authorization
header. -/
def sampleItemAuth : DownloadItem :=
  { id := "d2", url := "http://example.com/g.zip", fileName := "g.zip",
    fileSize := 100, downloaded := 0, progress := 0, speed := 0, eta := 0,
    status := DownloadStatus.queued, savePath := "/tmp/downloads",
    resumable := true, segments := [], maxSegments := 4, error := none,
    headers := [("Authorization", "Bearer secret")] }

/-- A fresh ten-byte segment. -/
def sampleSegment10 : DownloadSegment :=
  { id := 0, offset := 0, length := 10, downloaded := 0,
    state := stNotStarted, speed := 0 }

/-- The empty monitor state. -/
def emptyMonitor : MonitorState := { mediaList := [], nextId := 0 }

/-- A detected media item from an ordinary host. -/
def sampleMediaItem : MediaItem :=
  { id := 0, name := "clip.mp4", tabUrl := "", tabId := "",
    url := { scheme := "https", host := "example.com", path := "/clip.mp4", query := [] },
    mediaType := "video", size := 0, contentType := "video/mp4",
    headers := [], cookies := none }

/-- A monitor state holding one media item. -/
def sampleMonitorState : MonitorState := { mediaList := [sampleMediaItem], nextId := 1 }

/-! ## Helper lemmas -/

theorem listIsPre_append (p l r : List Char) (h : listIsPre p l = true) :
    listIsPre p (l ++ r) = true := by
  induction p generalizing l with
  | nil => simp [listIsPre]
  | cons a as ih =>
    cases l with
    | nil => simp [listIsPre] at h
    | cons b bs =>
      simp [listIsPre] at h ⊢
      exact ⟨h.1, ih bs h.2⟩

theorem listInfix_nil_pat (l : List Char) : listInfix [] l = true := by
  induction l with
  | nil => simp [listInfix, listIsPre]
  | cons c cs ih => simp [listInfix, listIsPre, ih]

theorem listInfix_append_right (p l r : List Char) (h : listInfix p l = true) :
    listInfix p (l ++ r) = true := by
  induction l with
  | nil =>
    cases p with
    | nil => exact listInfix_nil_pat r
    | cons a as => simp [listInfix, listIsPre] at h
  | cons c cs ih =>
    simp only [listInfix, Bool.or_eq_true] at h ⊢
    rcases h with h | h
    · exact Or.inl (listIsPre_append _ _ _ h)
    · exact Or.inr (ih h)

theorem listInfix_append_left (p l r : List Char) (h : listInfix p l = true) :
    listInfix p (r ++ l) = true := by
  induction r with
  | nil => simpa
  | cons c cs ih => simp [listInfix, ih]

/-- A pattern contained in the host is contained in the URL serialization. -/
theorem strContains_host (u : Url) (pat : String)
    (h : strContains u.host pat = true) :
    strContains (urlToString u) pat = true := by
  have hdata : (urlToString u).data =
      (u.scheme ++ "://").data ++ (u.host.data ++ (u.path ++ queryToString u.query).data) := by
    simp [urlToString, String.data_append]
  unfold strContains at h ⊢
  rw [hdata]
  exact listInfix_append_left _ _ _ (listInfix_append_right _ _ _ h)

theorem getHeader_objSet (l : List (String × String)) (k v : String) :
    getHeader (objSet l k v) k = some v := by
  induction l with
  | nil => simp [objSet, getHeader]
  | cons p rest ih =>
    by_cases hp : p.1 = k
    · simp [objSet, hp, getHeader]
    · simp [objSet, hp, getHeader, ih]

/-- Writing one key leaves every other key unchanged. -/
theorem getHeader_objSet_other (l : List (String × String)) (k v k' : String)
    (h : k' ≠ k) : getHeader (objSet l k v) k' = getHeader l k' := by
  induction l with
  | nil => simp [objSet, getHeader, Ne.symm h]
  | cons p rest ih =>
    by_cases hp : p.1 = k
    · simp [objSet, hp, getHeader, Ne.symm h]
    · simp [objSet, hp, getHeader, ih]

/-- An object spread of pairs none of which uses key k leaves k's value
unchanged. -/
theorem getHeader_objAssign_absent (base upd : List (String × String)) (k : String)
    (h : ∀ p ∈ upd, p.1 ≠ k) :
    getHeader (objAssign base upd) k = getHeader base k := by
  induction upd generalizing base with
  | nil => rfl
  | cons p rest ih =>
    have hstep : objAssign base (p :: rest) = objAssign (objSet base p.1 p.2) rest := rfl
    rw [hstep, ih (objSet base p.1 p.2) (fun q hq => h q (List.mem_cons_of_mem _ hq))]
    exact getHeader_objSet_other base p.1 p.2 k (Ne.symm (h p (List.mem_cons_self _ _)))

/-- An object spread of pairs with pairwise-distinct keys (a JavaScript
Record) stores every pair at its own key. -/
theorem getHeader_objAssign_mem (base upd : List (String × String))
    (p : String × String) (hp : p ∈ upd)
    (hnodup : (upd.map (fun q => q.1)).Nodup) :
    getHeader (objAssign base upd) p.1 = some p.2 := by
  induction upd generalizing base with
  | nil => cases hp
  | cons q rest ih =>
    rw [List.map_cons, List.nodup_cons] at hnodup
    have hstep : objAssign base (q :: rest) = objAssign (objSet base q.1 q.2) rest := rfl
    rcases List.mem_cons.mp hp with rfl | hmem
    · have habs : ∀ r ∈ rest, r.1 ≠ p.1 := by
        intro r hr he
        exact hnodup.1 (he ▸ List.mem_map_of_mem (fun z => z.1) hr)
      rw [hstep, getHeader_objAssign_absent _ _ _ habs]
      exact getHeader_objSet _ _ _
    · rw [hstep]
      exact ih _ hmem hnodup.2

theorem foldl_add_downloaded (l : List DownloadSegment) (a : Int) :
    l.foldl (fun sum seg => sum + seg.downloaded) a
      = a + (l.map (fun s => s.downloaded)).sum := by
  induction l generalizing a with
  | nil => simp
  | cons s t ih => simp [List.foldl_cons, ih]; ring

/-- Deleting the three YouTube range parameters is idempotent. -/
theorem getYouTubeBaseUrl_idem (u : Url) :
    getYouTubeBaseUrl (getYouTubeBaseUrl u) = getYouTubeBaseUrl u := by
  simp [getYouTubeBaseUrl, List.filter_filter]

/-- Deleting query parameters leaves the host unchanged. -/
theorem getYouTubeBaseUrl_host (u : Url) : (getYouTubeBaseUrl u).host = u.host := rfl

/-- A URL whose host names googlevideo.com or youtube.com is classified as
YouTube whatever the tab URL. -/
theorem isYouTube_of_host (u : Url) (tabUrl : String)
    (h : strContains u.host "googlevideo.com" = true
         ∨ strContains u.host "youtube.com" = true) :
    isYouTube u tabUrl = true := by
  unfold isYouTube
  rcases h with h | h
  · simp [strContains_host u _ h]
  · simp [strContains_host u _ h]

/-! ## C1 -/

/-- C1 (code evaluation at the failing input): the claim says a clean EOF
marks the segment finished iff the length is UNKNOWN or downloaded equals
length, and failed otherwise.  The EOF handler at download-engine.ts lines
383-388 sets state = Finished unconditionally: a segment of length 10 with
only 5 bytes downloaded is still marked Finished, not Failed, at clean
EOF. -/
theorem c1_clean_eof_short_read :
    (onResponseEnd { id := 0, offset := 0, length := 10, downloaded := 5,
                     state := stDownloading, speed := 0 }).state = stFinished
    ∧ stFinished ≠ stFailed
    ∧ ¬(((10 : Int) = -1) ∨ ((5 : Int) = 10)) := by decide

/-! ## C3 -/

/-- C3 (counterexample): a response with Accept-Ranges "Bytes" and no
Content-Length contains "bytes" case-insensitively, so the claim says
resumable must be true, but probeUrl (download-engine.ts line 198) compares
with strict === and returns false. -/
theorem c3_counterexample :
    probeResumable { contentLength := none, acceptRanges := some "Bytes" } = false
    ∧ strContains (strToLower "Bytes") "bytes" = true := by decide

/-- C3 (amended): the probe reports resumable iff the Accept-Ranges header
equals "bytes" exactly (case-sensitively, no substring match) or the parsed
Content-Length (parseInt of the header, with "-1" substituted when the
header is absent or empty) is strictly positive; a Content-Length of 0 does
not count as a known size for this purpose, and an unparseable header
yields NaN, not UNKNOWN. -/
theorem c3_resumable_characterization (res : ProbeResponse) :
    probeResumable res = true ↔
      (res.acceptRanges = some "bytes"
       ∨ ∃ n : Int, probeFileSize res = some n ∧ 0 < n) := by
  unfold probeResumable
  cases har : res.acceptRanges with
  | none => cases hfs : probeFileSize res <;> simp [har, hfs]
  | some v => cases hfs : probeFileSize res <;> simp [har, hfs]

/-! ## C4 -/

/-- C4 (counterexample): a POST /media request with a malformed body is
answered 200, not 400 — every handler swallows its own JSON.parse failure
(browser-monitor.ts lines 323-325) and handleRequest then always sends the
sync snapshot with status 200 (lines 209-210). -/
theorem c4_counterexample :
    (handleRequest emptyMonitor "POST" "/media" ReqBody.malformed).2.1 = 200
    ∧ (handleRequest emptyMonitor "POST" "/media" ReqBody.malformed).1 = emptyMonitor
    ∧ (200 : Nat) ≠ 400 := by decide

/-- C4 (amended): every non-OPTIONS request to the ingestion endpoint,
whatever its path and body, is answered 200 with the sync snapshot; a
malformed (unparseable) body never changes the monitor state on any path
other than /clear, and /clear's clearing effect is body-independent (the
handler never reads the body, so even a malformed one clears the list).
The monitor owns no download state at all, so its errors cannot disturb
in-flight downloads. -/
theorem c4_endpoint_always_200 (st : MonitorState) (method path : String)
    (body : ReqBody) (hm : method ≠ "OPTIONS") :
    (handleRequest st method path body).2.1 = 200
    ∧ (path ≠ "/clear" → (handleRequest st method path ReqBody.malformed).1 = st)
    ∧ (path = "/clear" →
        (handleRequest st method path body).1 = { st with mediaList := [] }) := by
  refine ⟨?_, ?_, ?_⟩
  · simp [handleRequest, hm]
  · intro hp
    simp only [handleRequest, if_neg hm]
    split_ifs <;>
      simp_all [onDownloadBody, onMediaBody, onVidBody, onTabUpdateBody, onBatchBody]
  · intro hp
    subst hp
    simp [handleRequest, hm]

/-- C4 witness: the amended theorem at a POST /media request with a
malformed body, and at a POST /clear request with a malformed body on a
non-empty media list. -/
theorem c4_endpoint_always_200_witness :
    (handleRequest emptyMonitor "POST" "/media" ReqBody.malformed).2.1 = 200
    ∧ (handleRequest emptyMonitor "POST" "/media" ReqBody.malformed).1 = emptyMonitor
    ∧ (handleRequest sampleMonitorState "POST" "/clear" ReqBody.malformed).2.1 = 200
    ∧ (handleRequest sampleMonitorState "POST" "/clear" ReqBody.malformed).1
        = { sampleMonitorState with mediaList := [] } :=
  ⟨(c4_endpoint_always_200 emptyMonitor "POST" "/media" ReqBody.malformed (by decide)).1,
   (c4_endpoint_always_200 emptyMonitor "POST" "/media" ReqBody.malformed
      (by decide)).2.1 (by decide),
   (c4_endpoint_always_200 sampleMonitorState "POST" "/clear" ReqBody.malformed
      (by decide)).1,
   (c4_endpoint_always_200 sampleMonitorState "POST" "/clear" ReqBody.malformed
      (by decide)).2.2 rfl⟩

/-! ## C8 -/

/-- C8: retryDownload resets every non-Finished segment to NotStarted with
downloaded = 0, leaves Finished segments untouched, and recomputes the
download counter as the sum of the segment counters, re-establishing
invariant I1. -/
theorem c8_retry_resets_and_restores_I1 (item : DownloadItem) :
    (retryDownloadReset item).segments = item.segments.map (fun seg =>
        if seg.state = stFinished then seg
        else { seg with state := stNotStarted, downloaded := 0 })
    ∧ (retryDownloadReset item).downloaded =
        ((retryDownloadReset item).segments.map (fun s => s.downloaded)).sum := by
  refine ⟨?_, ?_⟩
  · simp only [retryDownloadReset, ne_eq, ite_not]
  · simp [retryDownloadReset, foldl_add_downloaded]

/-! ## C10 -/

/-- C10: startDownload invoked on an item already in the downloading state
returns the item unchanged at once: no segment initialization, no field
mutation, no events (download-engine.ts line 464). -/
theorem c10_start_on_downloading_is_noop (item : DownloadItem)
    (h : item.status = DownloadStatus.downloading) :
    startDownloadSync item = (item, []) := by
  simp [startDownloadSync, h]

/-- C10 witness: the no-op on a concrete downloading item. -/
theorem c10_start_on_downloading_is_noop_witness :
    startDownloadSync sampleItemDownloading = (sampleItemDownloading, []) :=
  c10_start_on_downloading_is_noop sampleItemDownloading rfl

/-! ## C2 -/

theorem segmentCount_pos (item : DownloadItem) (hms : 1 ≤ item.maxSegments) :
    1 ≤ segmentCountOf item :=
  le_min hms (le_max_left 1 _)

theorem segmentCount_le_size (item : DownloadItem) (hfs : 0 < item.fileSize) :
    segmentCountOf item ≤ item.fileSize.toNat := by
  have h1 : item.fileSize.toNat / (256 * 1024) ≤ item.fileSize.toNat :=
    Nat.div_le_self _ _
  have h2 : 1 ≤ item.fileSize.toNat := by omega
  exact le_trans (min_le_right _ _) (max_le h2 h1)

theorem segmentSize_pos (item : DownloadItem) (hfs : 0 < item.fileSize)
    (hms : 1 ≤ item.maxSegments) : 1 ≤ segmentSizeOf item := by
  unfold segmentSizeOf
  refine (Nat.le_div_iff_mul_le (segmentCount_pos item hms)).mpr ?_
  simpa using segmentCount_le_size item hfs

theorem count_mul_size_le (item : DownloadItem) :
    segmentCountOf item * segmentSizeOf item ≤ item.fileSize.toNat := by
  unfold segmentSizeOf
  rw [Nat.mul_comm]
  exact Nat.div_mul_le_self _ _

theorem initializeSegments_length (item : DownloadItem)
    (hfs : 0 < item.fileSize) (hres : item.resumable = true) :
    (initializeSegments item).length = segmentCountOf item := by
  have hn : ¬ (item.fileSize ≤ 0) := not_le.mpr hfs
  simp [initializeSegments, hn, hres]

theorem initializeSegments_get (item : DownloadItem)
    (hfs : 0 < item.fileSize) (hres : item.resumable = true) (i : Nat)
    (h : i < (initializeSegments item).length) :
    (initializeSegments item).get ⟨i, h⟩ =
      { id := i, offset := ((i * segmentSizeOf item : Nat) : Int),
        length := if i = segmentCountOf item - 1
          then item.fileSize - ((i * segmentSizeOf item : Nat) : Int)
          else ((segmentSizeOf item : Nat) : Int),
        downloaded := 0, state := stNotStarted, speed := 0 } := by
  have hn : ¬ (item.fileSize ≤ 0) := not_le.mpr hfs
  simp [initializeSegments, hn, hres, List.get_eq_getElem]

theorem initializeSegments_offset (item : DownloadItem)
    (hfs : 0 < item.fileSize) (hres : item.resumable = true) (i : Nat)
    (h : i < (initializeSegments item).length) :
    ((initializeSegments item).get ⟨i, h⟩).offset
      = ((i * segmentSizeOf item : Nat) : Int) := by
  rw [initializeSegments_get item hfs hres i h]

theorem initializeSegments_len_last (item : DownloadItem)
    (hfs : 0 < item.fileSize) (hres : item.resumable = true) (i : Nat)
    (h : i < (initializeSegments item).length)
    (hi : i = segmentCountOf item - 1) :
    ((initializeSegments item).get ⟨i, h⟩).length
      = item.fileSize - ((i * segmentSizeOf item : Nat) : Int) := by
  rw [initializeSegments_get item hfs hres i h]
  simp [hi]

theorem initializeSegments_len_mid (item : DownloadItem)
    (hfs : 0 < item.fileSize) (hres : item.resumable = true) (i : Nat)
    (h : i < (initializeSegments item).length)
    (hi : i ≠ segmentCountOf item - 1) :
    ((initializeSegments item).get ⟨i, h⟩).length
      = ((segmentSizeOf item : Nat) : Int) := by
  rw [initializeSegments_get item hfs hres i h]
  simp [hi]

/-- C2: for a resumable download of known positive size and a positive
maxSegments bound, initializeSegments yields
N = min(maxSegments, max(1, floor(size/256KB))) segments; segment i starts
at i * floor(size/N), every segment but the last is floor(size/N) bytes
and the last carries the remainder; the ranges are pairwise disjoint and
their union is exactly [0, size). -/
theorem c2_segment_partition (item : DownloadItem)
    (hfs : 0 < item.fileSize) (hres : item.resumable = true)
    (hms : 1 ≤ item.maxSegments) :
    (initializeSegments item).length
        = min item.maxSegments (max 1 (item.fileSize.toNat / (256 * 1024)))
    ∧ (∀ i, ∀ h : i < (initializeSegments item).length,
        ((initializeSegments item).get ⟨i, h⟩).offset
            = ((i * segmentSizeOf item : Nat) : Int)
        ∧ ((initializeSegments item).get ⟨i, h⟩).length
            = (if i = segmentCountOf item - 1
               then item.fileSize - ((i * segmentSizeOf item : Nat) : Int)
               else ((segmentSizeOf item : Nat) : Int)))
    ∧ (∀ i j, ∀ hi : i < (initializeSegments item).length,
        ∀ hj : j < (initializeSegments item).length, i < j →
        ((initializeSegments item).get ⟨i, hi⟩).offset
            + ((initializeSegments item).get ⟨i, hi⟩).length
          ≤ ((initializeSegments item).get ⟨j, hj⟩).offset)
    ∧ (∀ x : Int, (0 ≤ x ∧ x < item.fileSize) ↔
        ∃ i, ∃ h : i < (initializeSegments item).length,
          ((initializeSegments item).get ⟨i, h⟩).offset ≤ x
          ∧ x < ((initializeSegments item).get ⟨i, h⟩).offset
              + ((initializeSegments item).get ⟨i, h⟩).length) := by
  have hN1 : 1 ≤ segmentCountOf item := segmentCount_pos item hms
  have hNle : segmentCountOf item ≤ item.fileSize.toNat := segmentCount_le_size item hfs
  have hs1 : 1 ≤ segmentSizeOf item := segmentSize_pos item hfs hms
  have hNs : segmentCountOf item * segmentSizeOf item ≤ item.fileSize.toNat :=
    count_mul_size_le item
  have hcast : ((item.fileSize.toNat : Nat) : Int) = item.fileSize :=
    Int.toNat_of_nonneg (le_of_lt hfs)
  have hlen : (initializeSegments item).length = segmentCountOf item :=
    initializeSegments_length item hfs hres
  refine ⟨by rw [hlen]; rfl, ?_, ?_, ?_⟩
  · intro i h
    rw [initializeSegments_get item hfs hres i h]
    exact ⟨rfl, rfl⟩
  · intro i j hi hj hij
    have hjN : j < segmentCountOf item := hlen ▸ hj
    have hiN1 : i ≠ segmentCountOf item - 1 := by omega
    rw [initializeSegments_offset item hfs hres i hi,
        initializeSegments_offset item hfs hres j hj,
        initializeSegments_len_mid item hfs hres i hi hiN1]
    have keyN : i * segmentSizeOf item + segmentSizeOf item ≤ j * segmentSizeOf item := by
      have h1 : (i + 1) * segmentSizeOf item ≤ j * segmentSizeOf item :=
        Nat.mul_le_mul_right _ (by omega)
      rw [Nat.succ_mul] at h1
      exact h1
    exact_mod_cast keyN
  · intro x
    constructor
    · rintro ⟨hx0, hxlt⟩
      have hxn : x < ((item.fileSize.toNat : Nat) : Int) := by rw [hcast]; exact hxlt
      have hm : x.toNat < item.fileSize.toNat := by omega
      have hxm : ((x.toNat : Nat) : Int) = x := Int.toNat_of_nonneg hx0
      by_cases hc : x.toNat / segmentSizeOf item < segmentCountOf item - 1
      · have hib : x.toNat / segmentSizeOf item < (initializeSegments item).length := by
          rw [hlen]; omega
        have hne : x.toNat / segmentSizeOf item ≠ segmentCountOf item - 1 := by omega
        refine ⟨x.toNat / segmentSizeOf item, hib, ?_, ?_⟩
        · rw [initializeSegments_offset item hfs hres _ hib]
          have hq : x.toNat / segmentSizeOf item * segmentSizeOf item ≤ x.toNat :=
            Nat.div_mul_le_self _ _
          calc ((x.toNat / segmentSizeOf item * segmentSizeOf item : Nat) : Int)
              ≤ ((x.toNat : Nat) : Int) := Int.ofNat_le.mpr hq
            _ = x := hxm
        · rw [initializeSegments_offset item hfs hres _ hib,
              initializeSegments_len_mid item hfs hres _ hib hne]
          have hdm := Nat.div_add_mod x.toNat (segmentSizeOf item)
          have hmod : x.toNat % segmentSizeOf item < segmentSizeOf item :=
            Nat.mod_lt _ (by omega)
          have hlt : x.toNat < x.toNat / segmentSizeOf item * segmentSizeOf item
              + segmentSizeOf item := by
            have hcm : x.toNat / segmentSizeOf item * segmentSizeOf item
                = segmentSizeOf item * (x.toNat / segmentSizeOf item) := Nat.mul_comm _ _
            rw [hcm]
            linarith
          calc x = ((x.toNat : Nat) : Int) := hxm.symm
            _ < ((x.toNat / segmentSizeOf item * segmentSizeOf item
                  + segmentSizeOf item : Nat) : Int) := Int.ofNat_lt.mpr hlt
            _ = ((x.toNat / segmentSizeOf item * segmentSizeOf item : Nat) : Int)
                  + ((segmentSizeOf item : Nat) : Int) := by push_cast; ring
      · have hib : segmentCountOf item - 1 < (initializeSegments item).length := by
          rw [hlen]; omega
        refine ⟨segmentCountOf item - 1, hib, ?_, ?_⟩
        · rw [initializeSegments_offset item hfs hres _ hib]
          have h1 : (segmentCountOf item - 1) * segmentSizeOf item
              ≤ x.toNat / segmentSizeOf item * segmentSizeOf item :=
            Nat.mul_le_mul_right _ (by omega)
          have h2 : x.toNat / segmentSizeOf item * segmentSizeOf item ≤ x.toNat :=
            Nat.div_mul_le_self _ _
          calc (((segmentCountOf item - 1) * segmentSizeOf item : Nat) : Int)
              ≤ ((x.toNat : Nat) : Int) := Int.ofNat_le.mpr (le_trans h1 h2)
            _ = x := hxm
        · rw [initializeSegments_offset item hfs hres _ hib,
              initializeSegments_len_last item hfs hres _ hib rfl]
          linarith
    · rintro ⟨i, h, hle, hlt⟩
      rw [initializeSegments_offset item hfs hres i h] at hle hlt
      have hx0 : 0 ≤ x := le_trans (Int.ofNat_nonneg _) hle
      refine ⟨hx0, ?_⟩
      by_cases hi1 : i = segmentCountOf item - 1
      · rw [initializeSegments_len_last item hfs hres i h hi1] at hlt
        linarith
      · rw [initializeSegments_len_mid item hfs hres i h hi1] at hlt
        have hiN : i < segmentCountOf item := by
          have := hlen ▸ h
          omega
        have hkey : i * segmentSizeOf item + segmentSizeOf item
            ≤ item.fileSize.toNat := by
          have h1 : (i + 1) * segmentSizeOf item
              ≤ segmentCountOf item * segmentSizeOf item :=
            Nat.mul_le_mul_right _ (by omega)
          rw [Nat.succ_mul] at h1
          omega
        have hcast2 : ((i * segmentSizeOf item + segmentSizeOf item : Nat) : Int)
            ≤ item.fileSize := by
          rw [← hcast]
          exact Int.ofNat_le.mpr hkey
        have hsplit : ((i * segmentSizeOf item + segmentSizeOf item : Nat) : Int)
            = ((i * segmentSizeOf item : Nat) : Int)
              + ((segmentSizeOf item : Nat) : Int) := by push_cast; ring
        linarith [hsplit ▸ hcast2]

/-- C2 witness: the partition of the concrete 1,000,000-byte resumable
item with maxSegments = 4 (the engine picks N = 3 there). -/
theorem c2_segment_partition_witness :
    (0 : Int) < sampleItemDownloading.fileSize
    ∧ sampleItemDownloading.resumable = true
    ∧ 1 ≤ sampleItemDownloading.maxSegments
    ∧ ((initializeSegments sampleItemDownloading).length
        = min sampleItemDownloading.maxSegments
            (max 1 (sampleItemDownloading.fileSize.toNat / (256 * 1024)))
    ∧ (∀ i, ∀ h : i < (initializeSegments sampleItemDownloading).length,
        ((initializeSegments sampleItemDownloading).get ⟨i, h⟩).offset
            = ((i * segmentSizeOf sampleItemDownloading : Nat) : Int)
        ∧ ((initializeSegments sampleItemDownloading).get ⟨i, h⟩).length
            = (if i = segmentCountOf sampleItemDownloading - 1
               then sampleItemDownloading.fileSize
                  - ((i * segmentSizeOf sampleItemDownloading : Nat) : Int)
               else ((segmentSizeOf sampleItemDownloading : Nat) : Int)))
    ∧ (∀ i j, ∀ hi : i < (initializeSegments sampleItemDownloading).length,
        ∀ hj : j < (initializeSegments sampleItemDownloading).length, i < j →
        ((initializeSegments sampleItemDownloading).get ⟨i, hi⟩).offset
            + ((initializeSegments sampleItemDownloading).get ⟨i, hi⟩).length
          ≤ ((initializeSegments sampleItemDownloading).get ⟨j, hj⟩).offset)
    ∧ (∀ x : Int, (0 ≤ x ∧ x < sampleItemDownloading.fileSize) ↔
        ∃ i, ∃ h : i < (initializeSegments sampleItemDownloading).length,
          ((initializeSegments sampleItemDownloading).get ⟨i, h⟩).offset ≤ x
          ∧ x < ((initializeSegments sampleItemDownloading).get ⟨i, h⟩).offset
              + ((initializeSegments sampleItemDownloading).get ⟨i, h⟩).length)) :=
  ⟨by decide, rfl, by decide,
   c2_segment_partition sampleItemDownloading (by decide) rfl (by decide)⟩

/-! ## C6 -/

/-- C6 (counterexample): the segment worker performs no header stripping
itself — downloadSegment (download-engine.ts lines 327-337) spreads
item.headers verbatim — so a download whose stored headers carry an
Authorization entry sends it on the wire, contradicting the claim that
every worker request excludes it. -/
theorem c6_counterexample :
    (buildSegmentHeaders sampleItemAuth sampleSegment10).any
      (fun kv => strToLower kv.1 = "authorization") = true := by decide

/-- C6 (amended): the strip list is applied by the ingestion endpoint, not
by the worker: cleanHeaders (browser-monitor.ts lines 558-572) keeps
exactly the caller headers whose lower-cased name is off the blocked list,
and those cleaned headers are what browser-originated downloads store; the
worker forwards the stored headers verbatim (every stored pair is sent at
its own key, a stored User-Agent overriding the product default, which is
used only when absent), and it injects its own Range header exactly when
the item is resumable and the segment length is positive — overriding any
stored Range when it injects, and sending no Range of its own when it
does not. -/
theorem c6_header_hygiene (hs : List (String × String)) (kv : String × String)
    (item : DownloadItem) (seg : DownloadSegment)
    (hnodup : (item.headers.map (fun p => p.1)).Nodup) :
    (kv ∈ cleanHeaders hs ↔
        kv ∈ hs ∧ blockedHeaderNames.contains (strToLower kv.1) = false)
    ∧ (kv ∈ item.headers →
        (item.resumable = true → 0 < seg.length → kv.1 ≠ "Range") →
        getHeader (buildSegmentHeaders item seg) kv.1 = some kv.2)
    ∧ (item.resumable = true → 0 < seg.length →
        getHeader (buildSegmentHeaders item seg) "Range" = some (rangeHeaderValue seg))
    ∧ (¬(item.resumable = true ∧ 0 < seg.length) →
        (∀ p ∈ item.headers, p.1 ≠ "Range") →
        getHeader (buildSegmentHeaders item seg) "Range" = none)
    ∧ ((∀ p ∈ item.headers, p.1 ≠ "User-Agent") →
        getHeader (buildSegmentHeaders item seg) "User-Agent"
          = some "QDM/1.0 (Quantum Download Manager)") := by
  refine ⟨?_, ?_, ?_, ?_, ?_⟩
  · simp [cleanHeaders, List.mem_filter]
  · intro hmem hkey
    unfold buildSegmentHeaders
    by_cases hcond : (item.resumable && decide (0 < seg.length)) = true
    · rw [if_pos hcond]
      have hr : item.resumable = true ∧ 0 < seg.length := by
        simpa [Bool.and_eq_true, decide_eq_true_eq] using hcond
      rw [getHeader_objSet_other _ _ _ _ (hkey hr.1 hr.2)]
      exact getHeader_objAssign_mem _ _ kv hmem hnodup
    · rw [if_neg hcond]
      exact getHeader_objAssign_mem _ _ kv hmem hnodup
  · intro hres hlen
    have hcond : (item.resumable && decide (0 < seg.length)) = true := by
      simp [hres, hlen]
    unfold buildSegmentHeaders
    rw [if_pos hcond]
    exact getHeader_objSet _ _ _
  · intro hncond hnorange
    have hcond : ¬ ((item.resumable && decide (0 < seg.length)) = true) := by
      intro habs
      exact hncond (by simpa [Bool.and_eq_true, decide_eq_true_eq] using habs)
    unfold buildSegmentHeaders
    rw [if_neg hcond, getHeader_objAssign_absent _ _ _ hnorange]
    decide
  · intro hnua
    have hbase : getHeader
        (objAssign [("User-Agent", "QDM/1.0 (Quantum Download Manager)")] item.headers)
        "User-Agent" = some "QDM/1.0 (Quantum Download Manager)" := by
      rw [getHeader_objAssign_absent _ _ _ hnua]
      decide
    unfold buildSegmentHeaders
    by_cases hcond : (item.resumable && decide (0 < seg.length)) = true
    · rw [if_pos hcond,
          getHeader_objSet_other _ _ _ _ (by decide : ("User-Agent" : String) ≠ "Range")]
      exact hbase
    · rw [if_neg hcond]
      exact hbase

/-- C6 witness: the amended theorem at a concrete resumable item whose
stored headers hold an Authorization entry and a fresh ten-byte segment:
the stored pair is forwarded verbatim at its own key, the injected Range
covers the whole segment, and the default User-Agent is sent. -/
theorem c6_header_hygiene_witness :
    ((sampleItemAuth.headers.map (fun p => p.1)).Nodup)
    ∧ ((("Authorization", "Bearer secret") ∈
          cleanHeaders [("Accept", "x"), ("X-Requested-With", "app")] ↔
        ("Authorization", "Bearer secret") ∈ [("Accept", "x"), ("X-Requested-With", "app")]
          ∧ blockedHeaderNames.contains
              (strToLower ("Authorization", "Bearer secret").1) = false)
      ∧ (("Authorization", "Bearer secret") ∈ sampleItemAuth.headers →
          (sampleItemAuth.resumable = true → 0 < sampleSegment10.length →
            ("Authorization", "Bearer secret").1 ≠ "Range") →
          getHeader (buildSegmentHeaders sampleItemAuth sampleSegment10)
              ("Authorization", "Bearer secret").1
            = some ("Authorization", "Bearer secret").2)
      ∧ (sampleItemAuth.resumable = true → 0 < sampleSegment10.length →
          getHeader (buildSegmentHeaders sampleItemAuth sampleSegment10) "Range"
            = some (rangeHeaderValue sampleSegment10))
      ∧ (¬(sampleItemAuth.resumable = true ∧ 0 < sampleSegment10.length) →
          (∀ p ∈ sampleItemAuth.headers, p.1 ≠ "Range") →
          getHeader (buildSegmentHeaders sampleItemAuth sampleSegment10) "Range" = none)
      ∧ ((∀ p ∈ sampleItemAuth.headers, p.1 ≠ "User-Agent") →
          getHeader (buildSegmentHeaders sampleItemAuth sampleSegment10) "User-Agent"
            = some "QDM/1.0 (Quantum Download Manager)")) :=
  ⟨by decide,
   c6_header_hygiene [("Accept", "x"), ("X-Requested-With", "app")]
     ("Authorization", "Bearer secret") sampleItemAuth sampleSegment10 (by decide)⟩

/-! ## C7 -/

/-- C7: with well-formed HH:MM bounds parsing to s and e minutes, the
schedule admits the local instant now iff the weekday is listed and the
minute of day lies in [s, e] inclusive when s <= e, and at or after s or
at or before e when s > e (the window wraps midnight), exactly as
isWithinSchedule (queue-manager.ts lines 195-213) computes. -/
theorem c7_schedule_window (schedule : QueueSchedule) (now : LocalNow) (s e : Nat)
    (hs : timePairMinutes (parseTimePair schedule.startTime) = some s)
    (he : timePairMinutes (parseTimePair schedule.endTime) = some e) :
    isWithinSchedule schedule now = true ↔
      (now.day ∈ schedule.days ∧
        (if s ≤ e
         then s ≤ now.hours * 60 + now.minutes ∧ now.hours * 60 + now.minutes ≤ e
         else s ≤ now.hours * 60 + now.minutes ∨ now.hours * 60 + now.minutes ≤ e)) := by
  unfold isWithinSchedule
  rw [hs, he]
  by_cases hd : now.day ∈ schedule.days
  · by_cases hse : s ≤ e <;>
      simp [hd, hse, jsLeOpt, jsGeOpt, List.elem_iff]
  · simp [hd, List.elem_iff]

/-- C7 witness: the P7 schedule, a window [22:00, 02:00] on Friday,
admits Friday 23:30. -/
theorem c7_schedule_window_witness :
    timePairMinutes (parseTimePair "22:00") = some 1320
    ∧ timePairMinutes (parseTimePair "02:00") = some 120
    ∧ (isWithinSchedule { enabled := true, startTime := "22:00", endTime := "02:00",
                          days := [5] } { day := 5, hours := 23, minutes := 30 } = true ↔
        ((5 : Nat) ∈ [(5 : Nat)] ∧
          (if 1320 ≤ 120
           then 1320 ≤ 23 * 60 + 30 ∧ 23 * 60 + 30 ≤ 120
           else 1320 ≤ 23 * 60 + 30 ∨ 23 * 60 + 30 ≤ 120))) :=
  ⟨by decide, by decide,
   c7_schedule_window _ { day := 5, hours := 23, minutes := 30 } 1320 120
     (by decide) (by decide)⟩

/-! ## C9 -/

/-- C9: a /media message that is not classified as YouTube and whose
reported length is positive but under 500KB, or whose effective content
type is web junk (text/, font/, image/svg prefixes or javascript, json,
xml substrings), is dropped by onMediaMessage (browser-monitor.ts lines
249-264): the state is unchanged and no media:added event is emitted. -/
theorem c9_junk_and_tiny_filtered (st : MonitorState) (msg : BrowserMessage)
    (url : Url) (hurl : msg.url = some url)
    (h1 : strContains (urlToString url) "googlevideo.com" = false)
    (h2 : strContains (urlToString url) "youtube.com" = false)
    (h3 : strContains ((msg.tabUrl).getD "") "youtube.com/watch" = false)
    (h5 : (0 < (msg.contentLength).getD 0 ∧ (msg.contentLength).getD 0 < 500 * 1024)
          ∨ isJunkContentType (effectiveContentType msg) = true) :
    onMediaMessage st msg = (st, []) := by
  have hyt : isYouTube url ((msg.tabUrl).getD "") = false := by
    simp [isYouTube, h1, h2, h3]
  by_cases hjunk : isJunkContentType (effectiveContentType msg) = true
  · simp [onMediaMessage, hurl, hjunk]
  · rcases h5 with ⟨hpos, hsmall⟩ | h
    · simp [onMediaMessage, hurl, hjunk, hyt, hpos, hsmall]
      intro hbig
      exact absurd hbig (by omega)
    · exact absurd h hjunk

/-- C9 witness: a 1000-byte mp4 from an ordinary host is dropped. -/
theorem c9_junk_and_tiny_filtered_witness :
    onMediaMessage emptyMonitor
      { url := some { scheme := "https", host := "example.com", path := "/v.mp4",
                      query := [] },
        file := none, requestHeaders := [], responseHeaders := [], cookie := none,
        tabUrl := none, tabTitle := none, tabId := none, vid := none,
        contentType := some "video/mp4", contentLength := some 1000,
        quality := none } = (emptyMonitor, []) :=
  c9_junk_and_tiny_filtered emptyMonitor _
    { scheme := "https", host := "example.com", path := "/v.mp4", query := [] }
    rfl (by decide) (by decide) (by decide) (Or.inl (by decide))

/-! ## C5 -/

/-- Scenario 6 chunk one: a googlevideo URL with a range parameter. -/
def ytUrlA : Url :=
  { scheme := "https", host := "rr1---sn-x.googlevideo.com", path := "/videoplayback",
    query := [("itag", "137"), ("range", "0-65535")] }

/-- Scenario 6 chunk two: the same URL with the next range window. -/
def ytUrlB : Url :=
  { scheme := "https", host := "rr1---sn-x.googlevideo.com", path := "/videoplayback",
    query := [("itag", "137"), ("range", "65536-131071")] }

/-- A /media message for a URL with the given content type. -/
def ytMediaMsg (u : Url) (ct : String) : BrowserMessage :=
  { url := some u, file := none, requestHeaders := [], responseHeaders := [],
    cookie := none, tabUrl := none, tabTitle := none, tabId := none, vid := none,
    contentType := some ct, contentLength := none, quality := none }

/-- C5 (counterexample): two /media messages on a googlevideo host that
differ only in the range parameter, but whose content type is text/html,
produce zero MediaItems, not one — the strict content-type filter at
browser-monitor.ts lines 255-258 runs before any YouTube handling, so the
claim fails as stated for such pairs. -/
theorem c5_counterexample :
    ((onMediaMessage (onMediaMessage emptyMonitor (ytMediaMsg ytUrlA "text/html")).1
        (ytMediaMsg ytUrlB "text/html")).1).mediaList.length = 0
    ∧ strContains ytUrlA.host "googlevideo.com" = true
    ∧ getYouTubeBaseUrl ytUrlA = getYouTubeBaseUrl ytUrlB
    ∧ (0 : Nat) ≠ 1 := by decide

/-- C5 (amended): for two /media messages whose URLs have a host naming
googlevideo.com or youtube.com, whose effective content types pass the
media filter (not text/, font/, image/svg prefixed nor containing
javascript, json or xml), and whose URLs differ only in the query
parameters range, rn, rbuf (their canonical URLs coincide), processing
both from an empty media list yields exactly one MediaItem, and its stored
url is the canonical URL with those three parameters removed. -/
theorem c5_youtube_dedup (m1 m2 : BrowserMessage) (u1 u2 : Url)
    (h1 : m1.url = some u1) (h2 : m2.url = some u2)
    (hhost : strContains u1.host "googlevideo.com" = true
             ∨ strContains u1.host "youtube.com" = true)
    (hbase : getYouTubeBaseUrl u2 = getYouTubeBaseUrl u1)
    (hct1 : isJunkContentType (effectiveContentType m1) = false)
    (hct2 : isJunkContentType (effectiveContentType m2) = false) :
    ((onMediaMessage (onMediaMessage emptyMonitor m1).1 m2).1).mediaList.map
        (fun m => urlToString m.url)
      = [urlToString (getYouTubeBaseUrl u1)] := by
  have hyt1 : ∀ t, isYouTube u1 t = true := fun t => isYouTube_of_host u1 t hhost
  have hhost2 : u2.host = u1.host := by
    have hh := congrArg Url.host hbase
    simpa [getYouTubeBaseUrl_host] using hh
  have hyt2 : ∀ t, isYouTube u2 t = true := fun t =>
    isYouTube_of_host u2 t (by rw [hhost2]; exact hhost)
  have hytb : isYouTube (getYouTubeBaseUrl u1) "" = true :=
    isYouTube_of_host _ _ (by rw [getYouTubeBaseUrl_host]; exact hhost)
  simp [onMediaMessage, h1, h2, hct1, hct2, hyt1, hyt2, hytb, hbase,
        getYouTubeBaseUrl_idem, emptyMonitor]

/-- C5 witness: the amended theorem at the two concrete scenario-6 chunks
with content type video/mp4. -/
theorem c5_youtube_dedup_witness :
    (ytMediaMsg ytUrlA "video/mp4").url = some ytUrlA
    ∧ (ytMediaMsg ytUrlB "video/mp4").url = some ytUrlB
    ∧ strContains ytUrlA.host "googlevideo.com" = true
    ∧ getYouTubeBaseUrl ytUrlB = getYouTubeBaseUrl ytUrlA
    ∧ isJunkContentType (effectiveContentType (ytMediaMsg ytUrlA "video/mp4")) = false
    ∧ isJunkContentType (effectiveContentType (ytMediaMsg ytUrlB "video/mp4")) = false
    ∧ ((onMediaMessage (onMediaMessage emptyMonitor (ytMediaMsg ytUrlA "video/mp4")).1
          (ytMediaMsg ytUrlB "video/mp4")).1).mediaList.map
        (fun m => urlToString m.url)
      = [urlToString (getYouTubeBaseUrl ytUrlA)] :=
  ⟨rfl, rfl, by decide, by decide, by decide, by decide,
   c5_youtube_dedup (ytMediaMsg ytUrlA "video/mp4") (ytMediaMsg ytUrlB "video/mp4")
     ytUrlA ytUrlB rfl rfl (Or.inl (by decide)) (by decide) (by decide) (by decide)⟩

end QDM
